import Mathlib

/-!
Verification development for the real-time collaboration transport of the
schema-design tool: the `SimpleWebSocketService` connection manager
(`src/services/simpleWebSocketService.ts`) and the `CollaborationService`
session layer (`collaborationService.ts`).

The embedding is shallow: the mutable `Map` fields of the service singleton
become association lists inside an explicit state record, each JS method
becomes a state-transformer function, and browser callbacks (`onclose`, the
`setTimeout` retry callback) become explicit transition functions
parameterised by the event data they receive.  `Date.now()` is passed in as
an explicit natural-number timestamp and `Math.random()*2000` jitter as an
explicit rational parameter.
-/

/-- JS strings are modelled as lists of characters so that the character-level
operations of the source (`split`, `join`, template literals) can be
reasoned about directly. -/
abbrev Str := List Char

/-- JS `s.split(sep)` for a single-character separator: the chunks strictly
between occurrences of `sep`, empty chunks included.  Always nonempty. -/
def splitOnChar (sep : Char) : Str → List Str
  | [] => [[]]
  | c :: cs =>
    match splitOnChar sep cs with
    | [] => [[]]
    | h :: t => if c = sep then [] :: h :: t else (c :: h) :: t

/-- JS `parts.join(sep)` for a single-character separator. -/
def joinChar (sep : Char) : List Str → Str
  | [] => []
  | [s] => s
  | s :: rest => s ++ sep :: joinChar sep rest

/-- Decimal rendering of a natural number, as `${n}` does in a template
literal for the values produced by `Date.now()`. -/
def natStr (n : Nat) : Str := (Nat.repr n).toList

section AssocMap

variable {κ : Type} {α : Type} [DecidableEq κ]

/-- JS `Map.prototype.get` (`none` for a missing key). -/
def lookupKey : List (κ × α) → κ → Option α
  | [], _ => none
  | p :: rest, k => if p.1 = k then some p.2 else lookupKey rest k

/-- JS `Map.prototype.set`: replace the entry in place if the key is present,
otherwise append a new entry. -/
def setKey : List (κ × α) → κ → α → List (κ × α)
  | [], k, v => [(k, v)]
  | p :: rest, k, v => if p.1 = k then (k, v) :: rest else p :: setKey rest k v

/-- JS `Map.prototype.delete` (a no-op for a missing key). -/
def eraseKey : List (κ × α) → κ → List (κ × α)
  | [], _ => []
  | p :: rest, k => if p.1 = k then eraseKey rest k else p :: eraseKey rest k

theorem lookupKey_setKey_self (m : List (κ × α)) (k : κ) (v : α) :
    lookupKey (setKey m k v) k = some v := by
  induction m with
  | nil => simp [setKey, lookupKey]
  | cons p rest ih =>
    by_cases h : p.1 = k
    · simp [setKey, lookupKey, h]
    · simp [setKey, lookupKey, h, ih]

theorem lookupKey_setKey_other (m : List (κ × α)) (k k' : κ) (v : α) (hkk : k' ≠ k) :
    lookupKey (setKey m k v) k' = lookupKey m k' := by
  have hkk' : ¬ (k = k') := fun he => hkk he.symm
  induction m with
  | nil => simp [setKey, lookupKey, hkk']
  | cons p rest ih =>
    by_cases h : p.1 = k
    · have hne : ¬ p.1 = k' := by rw [h]; exact Ne.symm hkk
      simp [setKey, lookupKey, h, hne, hkk']
    · by_cases h' : p.1 = k'
      · simp [setKey, lookupKey, h, h', hkk]
      · simp [setKey, lookupKey, h, h', ih]

theorem lookupKey_eraseKey_self (m : List (κ × α)) (k : κ) :
    lookupKey (eraseKey m k) k = none := by
  induction m with
  | nil => simp [eraseKey, lookupKey]
  | cons p rest ih =>
    by_cases h : p.1 = k
    · simp [eraseKey, h, ih]
    · simp [eraseKey, lookupKey, h, ih]

end AssocMap

namespace SimpleWebSocketService

/-- The recognised configuration of `connect`: only `enableReconnect` affects
the connection-manager state; the `onOpen`/`onMessage`/`onClose`/`onError`
callbacks are externally supplied observers and are not part of the state. -/
structure ConnectOptions where
  enableReconnect : Bool
deriving DecidableEq, Repr

/-- The data of a browser `CloseEvent` consulted by the `onclose` handler. -/
structure CloseEvent where
  code : Nat
  wasClean : Bool
deriving DecidableEq, Repr

/-- One tracked connection: the string id used as the `Map` key, together
with the endpoint key (last two URL path segments) it was created for.  The
`endpointKey` field is the ghost data of the spec's ConnectionRecord; the JS
map stores only `id ↦ socket`. -/
structure Record where
  id : Str
  endpointKey : Str
deriving DecidableEq, Repr

/-- The data captured by a scheduled reconnect `setTimeout` callback:
the url, the attempt count read at schedule time, and the options. -/
structure PendingRetry where
  url : Str
  attempts : Nat
  opts : ConnectOptions
deriving DecidableEq, Repr

/-- The three `Map` fields of the service singleton. -/
structure ServiceState where
  connections : List Record
  reconnectTimeouts : List (Str × PendingRetry)
  reconnectAttempts : List (Str × Nat)
deriving DecidableEq, Repr

def emptyState : ServiceState := ⟨[], [], []⟩

def maxReconnectAttempts : Nat := 5

/-- `url.split('/').slice(-2).join('/')` — the endpoint key. -/
def lastTwoPath (url : Str) : Str :=
  let parts := splitOnChar '/' url
  joinChar '/' (parts.drop (parts.length - 2))

/-- `` `${urlPath}_${Date.now()}` `` — the generated connection id. -/
def connectionIdOf (url : Str) (ts : Nat) : Str :=
  lastTwoPath url ++ '_' :: natStr ts

/-- `id.split('_')[0]` — the id prefix used to match existing connections. -/
def idKeyOf (id : Str) : Str := (splitOnChar '_' id).headD []

/-- `connections.delete` expressed on the record list. -/
def deleteRecord : List Record → Str → List Record
  | [], _ => []
  | r :: rest, id => if r.id = id then deleteRecord rest id else r :: deleteRecord rest id

/-- `connections.set` (replace in place or append). -/
def setRecord : List Record → Record → List Record
  | [], r => [r]
  | x :: xs, r => if x.id = r.id then r :: xs else x :: setRecord xs r

/-- `Array.from(this.connections.entries()).filter(([id, _]) =>
id.split('_')[0] === urlPath)`. -/
def matchingRecords : List Record → Str → List Record
  | [], _ => []
  | r :: rest, p =>
    if idKeyOf r.id = p then r :: matchingRecords rest p else matchingRecords rest p

/-- The `existingConnections.forEach` teardown loop: close the socket
(code 1000), delete the connection entry, clear and delete the reconnect
timeout, delete the reconnect-attempts entry. -/
def teardown : List Record → ServiceState → ServiceState
  | [], st => st
  | r :: rest, st =>
    teardown rest
      { connections := deleteRecord st.connections r.id
        reconnectTimeouts := eraseKey st.reconnectTimeouts r.id
        reconnectAttempts := eraseKey st.reconnectAttempts r.id }

/-- `connect(url, options)` (state part): tear down every tracked connection
whose id prefix matches the new endpoint key, reset the attempt counter for
the new id to 0, register the new socket.  Returns the connection id. -/
def connect (url : Str) (ts : Nat) (opts : ConnectOptions) (st : ServiceState) :
    Str × ServiceState :=
  let urlPath := lastTwoPath url
  let connectionId := connectionIdOf url ts
  let existing := matchingRecords st.connections urlPath
  let st := teardown existing st
  let st := { st with reconnectAttempts := setKey st.reconnectAttempts connectionId 0 }
  let _ := opts
  let st := { st with connections := setRecord st.connections ⟨connectionId, urlPath⟩ }
  (connectionId, st)

/-- The reconnect-eligibility condition of the `onclose` handler:
`options.enableReconnect && code !== 1000 && code !== 1001 && code !== 1006
&& !event.wasClean`. -/
def shouldReconnect (opts : ConnectOptions) (ev : CloseEvent) : Bool :=
  opts.enableReconnect && !(ev.code == 1000) && !(ev.code == 1001) &&
    !(ev.code == 1006) && !ev.wasClean

/-- The `socket.onclose` handler: delete the connection entry, clear any
existing reconnect timeout, then either schedule a retry (when eligible and
the stored attempt count is below the maximum) or delete the attempts
entry. -/
def onclose (connectionId : Str) (url : Str) (opts : ConnectOptions) (ev : CloseEvent)
    (st : ServiceState) : ServiceState :=
  let st := { st with connections := deleteRecord st.connections connectionId }
  let st := { st with reconnectTimeouts := eraseKey st.reconnectTimeouts connectionId }
  if shouldReconnect opts ev then
    let attempts := (lookupKey st.reconnectAttempts connectionId).getD 0
    if attempts < maxReconnectAttempts then
      { st with
          reconnectTimeouts := setKey st.reconnectTimeouts connectionId ⟨url, attempts, opts⟩ }
    else
      { st with reconnectAttempts := eraseKey st.reconnectAttempts connectionId }
  else
    { st with reconnectAttempts := eraseKey st.reconnectAttempts connectionId }

/-- The scheduled retry callback: if the attempt-counter entry for the
connection still exists, bump it to `attempts + 1` and re-run `connect`;
otherwise do nothing. -/
def fireRetry (connectionId : Str) (pr : PendingRetry) (ts : Nat) (st : ServiceState) :
    ServiceState :=
  if (lookupKey st.reconnectAttempts connectionId).isSome then
    let att := setKey st.reconnectAttempts connectionId (pr.attempts + 1)
    let st := { st with reconnectAttempts := att }
    (connect pr.url ts pr.opts st).2
  else st

/-- `disconnect(connectionId)`: close and delete the socket entry, clear and
delete the reconnect timeout, delete the attempt counter. -/
def disconnect (connectionId : Str) (st : ServiceState) : ServiceState :=
  { connections := deleteRecord st.connections connectionId
    reconnectTimeouts := eraseKey st.reconnectTimeouts connectionId
    reconnectAttempts := eraseKey st.reconnectAttempts connectionId }

/-- A sequence of `connect` calls from the initial (empty) singleton state,
each with its own `Date.now()` value. -/
def runConnects (calls : List (Str × Nat)) : ServiceState :=
  calls.foldl (fun st c => (connect c.1 c.2 ⟨true⟩ st).2) emptyState

/-- Number of tracked records whose endpoint key is `E`. -/
def keyCountL : List Record → Str → Nat
  | [], _ => 0
  | r :: rest, E => (if r.endpointKey = E then 1 else 0) + keyCountL rest E

/-- `this.baseReconnectDelay` (ms). -/
def baseReconnectDelay : ℚ := 2000

/-- `Math.min(baseDelay * Math.pow(2, attempts), 30000)`. -/
def exponentialDelay (attempts : Nat) : ℚ :=
  min (baseReconnectDelay * 2 ^ attempts) 30000

/-- `exponentialDelay + jitter`, where `jitter = Math.random() * 2000`. -/
def reconnectDelay (attempts : Nat) (jitter : ℚ) : ℚ :=
  exponentialDelay attempts + jitter

theorem splitOnChar_ne_nil (sep : Char) (s : Str) : splitOnChar sep s ≠ [] := by
  cases s with
  | nil => simp [splitOnChar]
  | cons c cs =>
    simp only [splitOnChar]
    cases h : splitOnChar sep cs with
    | nil => simp
    | cons a l => by_cases hc : c = sep <;> simp [hc]

theorem splitOnChar_append (sep : Char) (K t : Str) (hK : sep ∉ K) :
    splitOnChar sep (K ++ sep :: t) = K :: splitOnChar sep t := by
  induction K with
  | nil =>
    obtain ⟨h, t', ht⟩ : ∃ h t', splitOnChar sep t = h :: t' := by
      cases hh : splitOnChar sep t with
      | nil => exact absurd hh (splitOnChar_ne_nil sep t)
      | cons a l => exact ⟨a, l, rfl⟩
    simp [splitOnChar, ht]
  | cons c cs ih =>
    have hc : c ≠ sep := fun h => hK (h ▸ List.mem_cons_self c cs)
    have hcs : sep ∉ cs := fun h => hK (List.mem_cons_of_mem _ h)
    simp [splitOnChar, ih hcs, hc]

/-- The key extracted from a generated id `K ++ "_" ++ t` is `K`, provided
`K` itself contains no underscore. -/
theorem idKeyOf_append (K t : Str) (hK : '_' ∉ K) : idKeyOf (K ++ '_' :: t) = K := by
  simp [idKeyOf, splitOnChar_append '_' K t hK]

theorem mem_deleteRecord {l : List Record} {id : Str} {x : Record}
    (h : x ∈ deleteRecord l id) : x ∈ l := by
  induction l with
  | nil => simp [deleteRecord] at h
  | cons r rest ih =>
    by_cases hr : r.id = id
    · simp only [deleteRecord, if_pos hr] at h
      exact List.mem_cons_of_mem _ (ih h)
    · simp only [deleteRecord, if_neg hr, List.mem_cons] at h
      rcases h with h | h
      · exact h ▸ List.mem_cons_self _ _
      · exact List.mem_cons_of_mem _ (ih h)

theorem deleteRecord_id_ne {l : List Record} {id : Str} {x : Record}
    (h : x ∈ deleteRecord l id) : x.id ≠ id := by
  induction l with
  | nil => simp [deleteRecord] at h
  | cons r rest ih =>
    by_cases hr : r.id = id
    · simp only [deleteRecord, if_pos hr] at h
      exact ih h
    · simp only [deleteRecord, if_neg hr, List.mem_cons] at h
      rcases h with h | h
      · exact h ▸ hr
      · exact ih h

theorem keyCountL_deleteRecord_le (l : List Record) (id E : Str) :
    keyCountL (deleteRecord l id) E ≤ keyCountL l E := by
  induction l with
  | nil => simp [deleteRecord]
  | cons r rest ih =>
    by_cases hr : r.id = id
    · simp only [deleteRecord, if_pos hr, keyCountL]
      exact le_trans ih (Nat.le_add_left _ _)
    · simp only [deleteRecord, if_neg hr, keyCountL]
      exact Nat.add_le_add_left ih _

theorem teardown_mem {L : List Record} {st : ServiceState} {x : Record}
    (h : x ∈ (teardown L st).connections) : x ∈ st.connections := by
  induction L generalizing st with
  | nil => exact h
  | cons r rest ih => exact mem_deleteRecord (ih h)

theorem keyCountL_teardown_le (L : List Record) (st : ServiceState) (E : Str) :
    keyCountL (teardown L st).connections E ≤ keyCountL st.connections E := by
  induction L generalizing st with
  | nil => simp [teardown]
  | cons r rest ih =>
    exact le_trans (ih _) (keyCountL_deleteRecord_le _ _ _)

theorem teardown_not_mem {L : List Record} {st : ServiceState} {x : Record}
    (hx : x.id ∈ L.map Record.id) : x ∉ (teardown L st).connections := by
  induction L generalizing st with
  | nil => simp at hx
  | cons r rest ih =>
    simp only [List.map_cons, List.mem_cons] at hx
    simp only [teardown]
    intro hmem
    rcases hx with hx | hx
    · exact deleteRecord_id_ne (teardown_mem hmem) hx
    · exact ih hx hmem

theorem mem_matchingRecords_of {l : List Record} {p : Str} {x : Record}
    (hx : x ∈ l) (hk : idKeyOf x.id = p) : x ∈ matchingRecords l p := by
  induction l with
  | nil => simp at hx
  | cons r rest ih =>
    rcases List.mem_cons.mp hx with h | h
    · subst h
      simp [matchingRecords, hk]
    · by_cases hr : idKeyOf r.id = p
      · simp only [matchingRecords, if_pos hr]
        exact List.mem_cons_of_mem _ (ih h)
      · simp only [matchingRecords, if_neg hr]
        exact ih h

theorem mem_setRecord {l : List Record} {r x : Record}
    (h : x ∈ setRecord l r) : x ∈ l ∨ x = r := by
  induction l with
  | nil => exact Or.inr (by simpa [setRecord] using h)
  | cons y ys ih =>
    by_cases hy : y.id = r.id
    · simp only [setRecord, if_pos hy, List.mem_cons] at h
      rcases h with h | h
      · exact Or.inr h
      · exact Or.inl (List.mem_cons_of_mem _ h)
    · simp only [setRecord, if_neg hy, List.mem_cons] at h
      rcases h with h | h
      · exact Or.inl (h ▸ List.mem_cons_self _ _)
      · rcases ih h with h' | h'
        · exact Or.inl (List.mem_cons_of_mem _ h')
        · exact Or.inr h'

theorem setRecord_of_forall_ne {l : List Record} {r : Record}
    (h : ∀ x ∈ l, x.id ≠ r.id) : setRecord l r = l ++ [r] := by
  induction l with
  | nil => simp [setRecord]
  | cons y ys ih =>
    have hy : y.id ≠ r.id := h y (List.mem_cons_self _ _)
    simp only [setRecord, if_neg hy, List.cons_append, List.cons.injEq, true_and]
    exact ih fun x hx => h x (List.mem_cons_of_mem _ hx)

theorem keyCountL_append (l₁ l₂ : List Record) (E : Str) :
    keyCountL (l₁ ++ l₂) E = keyCountL l₁ E + keyCountL l₂ E := by
  induction l₁ with
  | nil => simp [keyCountL]
  | cons r rest ih => simp [keyCountL, ih, Nat.add_assoc]

theorem keyCountL_setRecord_le {l : List Record} {r : Record} {E : Str}
    (h : r.endpointKey ≠ E) : keyCountL (setRecord l r) E ≤ keyCountL l E := by
  induction l with
  | nil => simp [setRecord, keyCountL, h]
  | cons y ys ih =>
    by_cases hy : y.id = r.id
    · simp only [setRecord, if_pos hy, keyCountL, if_neg h]
      exact Nat.add_le_add_right (Nat.zero_le _) _
    · simp only [setRecord, if_neg hy, keyCountL]
      exact Nat.add_le_add_left ih _

theorem keyCountL_eq_zero {l : List Record} {E : Str}
    (h : ∀ x ∈ l, x.endpointKey ≠ E) : keyCountL l E = 0 := by
  induction l with
  | nil => rfl
  | cons r rest ih =>
    have hr : r.endpointKey ≠ E := h r (List.mem_cons_self _ _)
    simp [keyCountL, hr, ih fun x hx => h x (List.mem_cons_of_mem _ hx)]

/-- The two-part connection-map invariant: every tracked record's id is its
endpoint key followed by an underscore and a timestamp, and every
underscore-free endpoint key has at most one tracked record. -/
def Inv (st : ServiceState) : Prop :=
  (∀ r ∈ st.connections, ∃ t, r.id = r.endpointKey ++ '_' :: t) ∧
  (∀ E : Str, '_' ∉ E → keyCountL st.connections E ≤ 1)

theorem connect_preserves_Inv (url : Str) (ts : Nat) (opts : ConnectOptions)
    (st : ServiceState) (h : Inv st) : Inv (connect url ts opts st).2 := by
  obtain ⟨hWF, hCnt⟩ := h
  set P := lastTwoPath url with hP
  have hconn : (connect url ts opts st).2.connections =
      setRecord (teardown (matchingRecords st.connections P) st).connections
        ⟨connectionIdOf url ts, P⟩ := rfl
  constructor
  · intro r hr
    rw [hconn] at hr
    rcases mem_setRecord hr with hr' | hr'
    · exact hWF r (teardown_mem hr')
    · exact ⟨natStr ts, by rw [hr']; rfl⟩

  · intro E hE
    rw [hconn]
    by_cases hPE : P = E
    · subst hPE
      have key : ∀ x ∈ (teardown (matchingRecords st.connections P) st).connections,
          idKeyOf x.id ≠ P := by
        intro x hx hkey
        exact teardown_not_mem
          (List.mem_map_of_mem Record.id (mem_matchingRecords_of (teardown_mem hx) hkey)) hx
      have hid : ∀ x ∈ (teardown (matchingRecords st.connections P) st).connections,
          x.id ≠ (Record.mk (connectionIdOf url ts) P).id := by
        intro x hx hxid
        apply key x hx
        rw [hxid]
        exact idKeyOf_append P (natStr ts) hE
      have hkeyz : ∀ x ∈ (teardown (matchingRecords st.connections P) st).connections,
          x.endpointKey ≠ P := by
        intro x hx hxkey
        obtain ⟨t, hxt⟩ := hWF x (teardown_mem hx)
        apply key x hx
        rw [hxt, hxkey]
        exact idKeyOf_append P t hE
      rw [setRecord_of_forall_ne hid, keyCountL_append,
        keyCountL_eq_zero hkeyz]
      simp [keyCountL]
    · calc keyCountL (setRecord (teardown (matchingRecords st.connections P) st).connections
            ⟨connectionIdOf url ts, P⟩) E
          ≤ keyCountL (teardown (matchingRecords st.connections P) st).connections E :=
            keyCountL_setRecord_le hPE
        _ ≤ keyCountL st.connections E := keyCountL_teardown_le _ _ _
        _ ≤ 1 := hCnt E hE

theorem Inv_emptyState : Inv emptyState := by
  constructor
  · intro r hr
    simp [emptyState] at hr
  · intro E _
    simp [emptyState, keyCountL]

theorem runConnects_Inv (calls : List (Str × Nat)) : Inv (runConnects calls) := by
  have main : ∀ (cs : List (Str × Nat)) (st : ServiceState), Inv st →
      Inv (cs.foldl (fun st c => (connect c.1 c.2 ⟨true⟩ st).2) st) := by
    intro cs
    induction cs with
    | nil => intro st h; simpa using h
    | cons c rest ih =>
      intro st h
      exact ih _ (connect_preserves_Inv c.1 c.2 ⟨true⟩ st h)
  exact main calls emptyState Inv_emptyState

/-- The url, options and close event used to drive the reconnect loop:
an endpoint with enableReconnect set, repeatedly closed with code 1011
(an internal-error close, reconnect-eligible) and `wasClean = false`. -/
def retryUrl : Str := ("a/b").toList

def retryOpts : ConnectOptions := ⟨true⟩

def abnormalClose : CloseEvent := ⟨1011, false⟩

/-- `n` full reconnect cycles after an initial `connect`: each cycle closes
the current connection abnormally and, if a retry was scheduled, fires it
(which re-runs `connect` at a fresh timestamp).  Returns the state and the
id of the current connection. -/
def retryChain : Nat → ServiceState × Str
  | 0 =>
    ((connect retryUrl 0 retryOpts emptyState).2, (connect retryUrl 0 retryOpts emptyState).1)
  | n + 1 =>
    let p := retryChain n
    let st1 := onclose p.2 retryUrl retryOpts abnormalClose p.1
    match lookupKey st1.reconnectTimeouts p.2 with
    | some pr => (fireRetry p.2 pr (n + 1) st1, connectionIdOf retryUrl (n + 1))
    | none => (st1, p.2)

/-- C1 (amended): after every sequence of `connect` calls the connection map
holds at most one record per endpoint key, provided the endpoint key
contains no underscore.  (The id-prefix match `id.split('_')[0]` truncates a
key at its first underscore, so the invariant fails for keys containing
`'_'`; see the counterexample.) -/
theorem connect_at_most_one_record_per_key (calls : List (Str × Nat)) (E : Str)
    (hE : '_' ∉ E) : keyCountL (runConnects calls).connections E ≤ 1 :=
  (runConnects_Inv calls).2 E hE

theorem connect_at_most_one_record_per_key_witness :
    ('_' ∉ ("a/b").toList) ∧
    keyCountL (runConnects [(("x/a/b").toList, 0), (("x/a/b").toList, 1)]).connections
      (("a/b").toList) ≤ 1 :=
  ⟨by decide, connect_at_most_one_record_per_key _ _ (by decide)⟩

/-- C1 counterexample: for the url `"h/ws/x_1"` the endpoint key (last two
path segments) is `"ws/x_1"`, which contains an underscore; two successive
`connect` calls for it leave TWO tracked records with that endpoint key,
because `id.split('_')[0]` of the first record's id is `"ws/x"`, which does
not match the new endpoint key, so the first record is never torn down. -/
theorem connect_duplicate_records_for_underscore_key :
    keyCountL (runConnects [(("h/ws/x_1").toList, 0), (("h/ws/x_1").toList, 1)]).connections
      (("ws/x_1").toList) = 2 := by decide

/-- C2: with the close event's code equal to 1000 or 1001, or with
`wasClean = true`, `onclose` never leaves a scheduled reconnect for the
connection (even when `enableReconnect` is set); conversely a scheduled
reconnect implies `enableReconnect` was set, the code was none of
1000/1001/1006, and the closure was not clean. -/
theorem onclose_reconnect_eligibility (st : ServiceState) (id url : Str)
    (opts : ConnectOptions) (ev : CloseEvent) :
    ((ev.code = 1000 ∨ ev.code = 1001 ∨ ev.wasClean = true) →
      lookupKey (onclose id url opts ev st).reconnectTimeouts id = none)
  ∧ (∀ pr : PendingRetry,
      lookupKey (onclose id url opts ev st).reconnectTimeouts id = some pr →
      opts.enableReconnect = true ∧ ev.code ≠ 1000 ∧ ev.code ≠ 1001 ∧ ev.code ≠ 1006 ∧
        ev.wasClean = false) := by
  constructor
  · intro h
    have hsr : shouldReconnect opts ev = false := by
      rcases h with h | h | h <;> simp [shouldReconnect, h]
    simp [onclose, hsr, lookupKey_eraseKey_self]
  · intro pr hpr
    by_cases hsr : shouldReconnect opts ev
    · have := hsr
      simp only [shouldReconnect, Bool.and_eq_true, Bool.not_eq_true',
        beq_eq_false_iff_ne, ne_eq, Bool.not_eq_true] at this
      exact ⟨this.1.1.1.1, this.1.1.1.2, this.1.1.2, this.1.2, this.2⟩
    · exfalso
      simp only [onclose, Bool.not_eq_true] at hpr
      rw [if_neg hsr] at hpr
      simp [lookupKey_eraseKey_self] at hpr

theorem onclose_reconnect_eligibility_witness :
    lookupKey (onclose (("a/b_0").toList) (("a/b").toList) ⟨true⟩ ⟨1000, false⟩
        emptyState).reconnectTimeouts (("a/b_0").toList) = none :=
  (onclose_reconnect_eligibility emptyState (("a/b_0").toList) (("a/b").toList)
    ⟨true⟩ ⟨1000, false⟩).1 (Or.inl rfl)

/-- C3 (the claim is right, the code is wrong): reconnection attempts are NOT
bounded by 5.  After six full reconnect cycles (six automatic attempts
already fired), closing the current connection abnormally still schedules a
seventh retry, with the stored attempt count still 0: every `connect`
registers a fresh `connectionId` (endpoint key + timestamp) whose counter is
reset to 0, so the counter read on close never reaches `maxReconnectAttempts`
and the give-up branch is unreachable. -/
theorem reconnect_attempts_unbounded :
    (retryChain 6).2 = connectionIdOf retryUrl 6 ∧
    lookupKey (onclose (retryChain 6).2 retryUrl retryOpts abnormalClose
        (retryChain 6).1).reconnectTimeouts (retryChain 6).2 =
      some ⟨retryUrl, 0, retryOpts⟩ := by decide

/-- C4 (amended): for a stored attempt count `n < 5` and jitter
`j ∈ [0, 2000)`, the scheduled delay equals `min(2000·2^n, 30000) + j` and
lies between `min(2000·2^n, 30000)` and `min(2000·2^n, 30000) + 2000`.
(The claimed lower bound `2000·2^n ≤ delay` fails at `n = 4`, where the
30000 ms cap is below `2000·2^4 = 32000`; see the counterexample.) -/
theorem reconnectDelay_formula_and_bounds (n : Nat) (j : ℚ)
    (_hn : n < 5) (h0 : 0 ≤ j) (h2 : j < 2000) :
    reconnectDelay n j = min (2000 * 2 ^ n) 30000 + j ∧
    min ((2000 : ℚ) * 2 ^ n) 30000 ≤ reconnectDelay n j ∧
    reconnectDelay n j ≤ min (2000 * 2 ^ n) 30000 + 2000 := by
  refine ⟨rfl, ?_, ?_⟩ <;>
    simp only [reconnectDelay, exponentialDelay, baseReconnectDelay] <;> linarith

theorem reconnectDelay_formula_and_bounds_witness :
    (0 < 5) ∧ ((0 : ℚ) ≤ 0) ∧ ((0 : ℚ) < 2000) ∧
    (reconnectDelay 0 0 = min (2000 * 2 ^ 0) 30000 + 0 ∧
     min ((2000 : ℚ) * 2 ^ 0) 30000 ≤ reconnectDelay 0 0 ∧
     reconnectDelay 0 0 ≤ min (2000 * 2 ^ 0) 30000 + 2000) :=
  ⟨by decide, by decide, by decide,
    reconnectDelay_formula_and_bounds 0 0 (by decide) (by decide) (by decide)⟩

/-- C4 counterexample: at stored attempt count 4 with jitter 0 the delay is
the 30000 ms cap, strictly below the claimed lower bound `2000·2^4`. -/
theorem reconnectDelay_lower_bound_fails_at_four :
    ¬ ((2000 : ℚ) * 2 ^ 4 ≤ reconnectDelay 4 0) := by
  have h : reconnectDelay 4 0 = 30000 := by
    norm_num [reconnectDelay, exponentialDelay, baseReconnectDelay, min_def]
  rw [h]; norm_num

/-- C5: `disconnect` removes the retry-attempt entry and the pending timer
for the id, and a scheduled retry callback that fires afterwards finds no
attempt-counter entry and leaves the state unchanged — it never creates a
new connection attempt. -/
theorem disconnect_aborts_pending_retry (st : ServiceState) (id : Str)
    (pr : PendingRetry) (ts : Nat) :
    fireRetry id pr ts (disconnect id st) = disconnect id st ∧
    lookupKey (disconnect id st).reconnectAttempts id = none ∧
    lookupKey (disconnect id st).reconnectTimeouts id = none := by
  refine ⟨?_, lookupKey_eraseKey_self _ _, lookupKey_eraseKey_self _ _⟩
  simp [fireRetry, disconnect, lookupKey_eraseKey_self]

end SimpleWebSocketService

namespace CollaborationService

/-- JS values as seen by `CollaborationService`: JSON-parsed inbound
messages and object-literal outbound envelopes.  `jundefined` is the result of
accessing a missing property. -/
inductive JValue where
  | jnull
  | jundefined
  | jbool (b : Bool)
  | jnum (n : Int)
  | jstr (s : String)
  | jobj (fields : List (String × JValue))
  | jarr (elems : List JValue)

/-- JS truthiness. -/
def truthy : JValue → Bool
  | .jnull => false
  | .jundefined => false
  | .jbool b => b
  | .jnum n => !(n == 0)
  | .jstr s => !(s == "")
  | .jobj _ => true
  | .jarr _ => true

/-- JS `typeof` (note `typeof null === "object"`). -/
def typeofJS : JValue → String
  | .jnull => "object"
  | .jundefined => "undefined"
  | .jbool _ => "boolean"
  | .jnum _ => "number"
  | .jstr _ => "string"
  | .jobj _ => "object"
  | .jarr _ => "object"

/-- Own-property lookup in an (evaluated) object's field list. -/
def getFieldL : List (String × JValue) → String → JValue
  | [], _ => .jundefined
  | (k, v) :: rest, key => if k = key then v else getFieldL rest key

/-- Property access `v.key` on a non-null value (arrays and primitives have
no such own properties, so the access yields `undefined`). -/
def getField : JValue → String → JValue
  | .jobj fields, key => getFieldL fields key
  | _, _ => .jundefined

/-- JS strict equality `===` on the values the service compares (`type`
discriminators and `tableId`s, both primitives).  Two distinct object or
array literals are never reference-identical, so they compare unequal. -/
def jsStrictEq : JValue → JValue → Bool
  | .jnull, .jnull => true
  | .jundefined, .jundefined => true
  | .jbool a, .jbool b => a == b
  | .jnum a, .jnum b => a == b
  | .jstr a, .jstr b => a == b
  | _, _ => false

/-- The `cursor_update` payload validation of `handleMessage`:
`cursorData && typeof cursorData === 'object' && cursorData.userId &&
typeof cursorData.userId === 'string'`. -/
def validCursorData (cursorData : JValue) : Bool :=
  truthy cursorData && (typeofJS cursorData == "object") &&
    truthy (getField cursorData "userId") &&
    (typeofJS (getField cursorData "userId") == "string")

/-- `handleMessage(message)`, modelled as the ordered list of
`(topic, payload)` events the session emits on its event bus for the
inbound message (logging aside).  `connection_established` and `pong` only
log; unknown types are logged and ignored. -/
def handleMessage (message : JValue) : List (String × JValue) :=
  let ty := getField message "type"
  if jsStrictEq ty (.jstr "connection_established") then []
  else if jsStrictEq ty (.jstr "user_joined") then
    [("user_joined", getField message "user")]
  else if jsStrictEq ty (.jstr "user_left") then
    [("user_left", getField message "userId")]
  else if jsStrictEq ty (.jstr "cursor_update") then
    let cursorData := getField message "data"
    if validCursorData cursorData then [("cursor_update", cursorData)] else []
  else if jsStrictEq ty (.jstr "schema_change") then
    [("schema_change", message)]
  else if jsStrictEq ty (.jstr "user_selection") then
    [("user_selection", getField message "data")]
  else if jsStrictEq ty (.jstr "presence_update") then
    [("presence_update", getField message "data")]
  else if jsStrictEq ty (.jstr "pong") then []
  else []

set_option linter.unusedVariables false in
/-- `resolveConflict(localChange, remoteChange)`: last-write-wins, the
remote change is returned unconditionally. -/
def resolveConflict (localChange remoteChange : JValue) : JValue :=
  remoteChange

/-- `new Date(v).getTime()` for the epoch-milliseconds numeric timestamps
the merge rule is specified over; `Date` parsing of non-numeric inputs is
outside the model. -/
def dateGetTime : JValue → Int
  | .jnum n => n
  | _ => 0

/-- The field list of an object value (else empty, as spreading a
non-object contributes no enumerable string-keyed properties). -/
def objFields : JValue → List (String × JValue)
  | .jobj fields => fields
  | _ => []

/-- Object spread `{...a, ...b}`: the fields of `a` updated and extended by
those of `b` in order (later assignments win). -/
def spreadInto (a b : List (String × JValue)) : List (String × JValue) :=
  b.foldl (fun acc p => setKey acc p.1 p.2) a

/-- `mergeTableOperations(op1, op2)`: `{...op1, data: {...op1.data,
...op2.data, lastModified: Math.max(t1, t2)}}`. -/
def mergeTableOperations (op1 op2 : JValue) : JValue :=
  let data := spreadInto (objFields (getField op1 "data")) (objFields (getField op2 "data"))
  let lastModified : JValue := .jnum (max (dateGetTime (getField op1 "timestamp"))
    (dateGetTime (getField op2 "timestamp")))
  .jobj (setKey (objFields op1) "data" (.jobj (setKey data "lastModified" lastModified)))

/-- `transformOperation(operation, otherOperation)`. -/
def transformOperation (operation otherOperation : JValue) : JValue :=
  if jsStrictEq (getField operation "type") (.jstr "table_update") &&
      jsStrictEq (getField otherOperation "type") (.jstr "table_update") then
    if jsStrictEq (getField operation "tableId") (getField otherOperation "tableId") then
      mergeTableOperations operation otherOperation
    else operation
  else operation

end CollaborationService

namespace CollaborationService

/-- `CollaborationUser` (the `role` union type is carried as its string). -/
structure CollaborationUser where
  id : String
  username : String
  role : String
  color : String

/-- `CursorPosition` with its optional anchors. -/
structure CursorPosition where
  x : Int
  y : Int
  tableId : Option String
  columnId : Option String

/-- `SchemaChange`; the envelope built from it uses `type` and `data`
together with the current user id and the current time. -/
structure SchemaChange where
  type : String
  data : JValue
  userId : String
  timestamp : String

/-- A `{ tableId?, columnId? }` selection. -/
structure UserSelection where
  tableId : Option String
  columnId : Option String

/-- The session-local fields of `CollaborationService` consulted by the
send methods. -/
structure SessionState where
  connectionId : Option String
  currentUser : Option CollaborationUser
  schemaId : Option String
  isConnected : Bool

/-- The observable result of a send method: the envelope was handed to the
transport, the call was a logged no-op, or the method threw a runtime
TypeError (dereference of a null `this.currentUser!`). -/
inductive SendOutcome where
  | sent (message : JValue)
  | noop
  | threw

/-- Truthiness of the `string | null` field `this.connectionId`. -/
def strOptTruthy : Option String → Bool
  | none => false
  | some s => !(s == "")

/-- `this.connectionId && this.isConnected &&
simpleWebSocketService.isConnected(this.connectionId)`; the third conjunct
(the socket's readyState) is supplied by the environment as `serviceOpen`. -/
def sessionReady (st : SessionState) (serviceOpen : Bool) : Bool :=
  strOptTruthy st.connectionId && st.isConnected && serviceOpen

/-- The private `sendMessage`: transmit when the session is connected,
otherwise a logged no-op (the message is dropped, not queued). -/
def sendMessage (st : SessionState) (serviceOpen : Bool) (message : JValue) :
    SendOutcome :=
  if sessionReady st serviceOpen then .sent message else .noop

/-- A `position` argument as the JS object transmitted inside the cursor
envelope (absent optional fields are absent properties). -/
def encodePosition (p : CursorPosition) : JValue :=
  .jobj ([("x", JValue.jnum p.x), ("y", JValue.jnum p.y)] ++
    (match p.tableId with | some t => [("tableId", JValue.jstr t)] | none => []) ++
    (match p.columnId with | some c => [("columnId", JValue.jstr c)] | none => []))

/-- A selection argument as a JS object. -/
def encodeSelection (sel : UserSelection) : JValue :=
  .jobj ((match sel.tableId with | some t => [("tableId", JValue.jstr t)] | none => []) ++
    (match sel.columnId with | some c => [("columnId", JValue.jstr c)] | none => []))

/-- An optional string argument as the JS property value it produces
(`undefined` when the argument is omitted). -/
def encodeOptStr : Option String → JValue
  | some s => .jstr s
  | none => .jundefined

/-- `sendCursorUpdate(position)`: explicitly guarded — with no current user
it logs and returns; otherwise it builds the `cursor_update` envelope and
hands it to `sendMessage`.  `now` stands for `new Date().toISOString()`. -/
def sendCursorUpdate (st : SessionState) (serviceOpen : Bool) (now : String)
    (position : CursorPosition) : SendOutcome :=
  match st.currentUser with
  | none => .noop
  | some u =>
    sendMessage st serviceOpen (.jobj
      [("type", JValue.jstr "cursor_update"),
       ("cursor", JValue.jobj
         [("userId", JValue.jstr u.id), ("username", JValue.jstr u.username),
          ("position", encodePosition position), ("color", JValue.jstr u.color),
          ("lastSeen", JValue.jstr now)])])

/-- `sendSchemaChange(change)`: the envelope literal evaluates
`this.currentUser!.id`, so with no current user the call throws before any
connectivity check. -/
def sendSchemaChange (st : SessionState) (serviceOpen : Bool) (now : String)
    (change : SchemaChange) : SendOutcome :=
  match st.currentUser with
  | none => .threw
  | some u =>
    sendMessage st serviceOpen (.jobj
      [("type", JValue.jstr "schema_change"), ("changeType", JValue.jstr change.type),
       ("data", change.data), ("userId", JValue.jstr u.id),
       ("timestamp", JValue.jstr now)])

/-- `sendUserSelection(selection)`: also evaluates `this.currentUser!.id`. -/
def sendUserSelection (st : SessionState) (serviceOpen : Bool) (now : String)
    (selection : UserSelection) : SendOutcome :=
  match st.currentUser with
  | none => .threw
  | some u =>
    sendMessage st serviceOpen (.jobj
      [("type", JValue.jstr "user_selection"),
       ("data", JValue.jobj
         [("userId", JValue.jstr u.id), ("selection", encodeSelection selection),
          ("timestamp", JValue.jstr now)])])

/-- `updatePresence(status, currentAction?)`: also evaluates
`this.currentUser!.id`. -/
def updatePresence (st : SessionState) (serviceOpen : Bool) (now : String)
    (status : String) (currentAction : Option String) : SendOutcome :=
  match st.currentUser with
  | none => .threw
  | some u =>
    sendMessage st serviceOpen (.jobj
      [("type", JValue.jstr "presence_update"),
       ("data", JValue.jobj
         [("userId", JValue.jstr u.id), ("status", JValue.jstr status),
          ("currentAction", encodeOptStr currentAction),
          ("timestamp", JValue.jstr now)])])

/-- `on(event, handler)` (named `onEvent` here since `on` is reserved):
create the topic's handler array if missing, then push.  Handler functions
are compared by reference in the source; the model identifies them by `Nat`
ids. -/
def onEvent (m : List (String × List Nat)) (event : String) (handler : Nat) :
    List (String × List Nat) :=
  let m := if (lookupKey m event).isSome then m else setKey m event []
  setKey m event ((lookupKey m event).getD [] ++ [handler])

/-- `off(event, handler)`: `indexOf` then `splice(index, 1)` — remove the
first matching registration only (no change when absent). -/
def off (m : List (String × List Nat)) (event : String) (handler : Nat) :
    List (String × List Nat) :=
  match lookupKey m event with
  | none => m
  | some handlers => setKey m event (handlers.erase handler)

/-- `emit(event, data)`: the ordered list of handlers invoked (each wrapped
in its own try/catch, so a throwing handler cannot stop the others). -/
def emit (m : List (String × List Nat)) (event : String) : List Nat :=
  match lookupKey m event with
  | none => []
  | some handlers => handlers

end CollaborationService

namespace CollaborationService

theorem validCursorData_iff (d : JValue) :
    validCursorData d = true ↔
      ∃ (fields : List (String × JValue)) (s : String),
        d = JValue.jobj fields ∧ getFieldL fields "userId" = .jstr s ∧ s ≠ "" := by
  cases d with
  | jobj fields =>
    cases hu : getFieldL fields "userId" <;>
      simp [validCursorData, truthy, typeofJS, getField, hu]
  | jnull => simp [validCursorData, truthy, typeofJS, getField]
  | jundefined => simp [validCursorData, truthy, typeofJS, getField]
  | jbool b => simp [validCursorData, truthy, typeofJS, getField]
  | jnum n => simp [validCursorData, truthy, typeofJS, getField]
  | jstr s => simp [validCursorData, truthy, typeofJS, getField]
  | jarr l => simp [validCursorData, truthy, typeofJS, getField]

theorem handleMessage_cursor_update (msg : JValue)
    (hty : getField msg "type" = .jstr "cursor_update") :
    handleMessage msg =
      if validCursorData (getField msg "data") then
        [("cursor_update", getField msg "data")]
      else [] := by
  simp [handleMessage, hty, jsStrictEq]

/-- C6: an inbound `cursor_update` envelope whose `data` payload is not an
object carrying a non-empty string `userId` is dropped — `handleMessage`
emits nothing at all — and anything that is emitted for such an envelope is
a single `cursor_update` event whose payload is the `data` object with a
non-empty string `userId`.  (`handleMessage` is a total function here: the
guards short-circuit, so the validation itself cannot throw.) -/
theorem cursor_update_dropped_without_userId (msg : JValue)
    (hty : getField msg "type" = .jstr "cursor_update") :
    ((¬ ∃ (fields : List (String × JValue)) (s : String),
        getField msg "data" = JValue.jobj fields ∧
          getFieldL fields "userId" = .jstr s ∧ s ≠ "") →
      handleMessage msg = [])
  ∧ (∀ ev payload, (ev, payload) ∈ handleMessage msg →
      ev = "cursor_update" ∧ payload = getField msg "data" ∧
      ∃ (fields : List (String × JValue)) (s : String),
        payload = JValue.jobj fields ∧ getFieldL fields "userId" = .jstr s ∧ s ≠ "") := by
  constructor
  · intro hnot
    rw [handleMessage_cursor_update msg hty, if_neg]
    intro hv
    exact hnot ((validCursorData_iff _).mp hv)
  · intro ev payload hmem
    rw [handleMessage_cursor_update msg hty] at hmem
    by_cases hv : validCursorData (getField msg "data") = true
    · rw [if_pos hv] at hmem
      obtain ⟨he, hp⟩ : ev = "cursor_update" ∧ payload = getField msg "data" := by
        simpa using hmem
      subst he; subst hp
      exact ⟨rfl, rfl, (validCursorData_iff _).mp hv⟩
    · rw [if_neg hv] at hmem
      simp at hmem

/-- A malformed inbound cursor envelope: the `data` payload is a string,
not an object with a `userId`. -/
def badCursorMsg : JValue :=
  .jobj [("type", JValue.jstr "cursor_update"), ("data", JValue.jstr "oops")]

theorem cursor_update_dropped_without_userId_witness :
    getField badCursorMsg "type" = .jstr "cursor_update" ∧
    handleMessage badCursorMsg = [] :=
  ⟨rfl,
    (cursor_update_dropped_without_userId badCursorMsg rfl).1
      (by simp [badCursorMsg, getField, getFieldL])⟩

/-- C7: `resolveConflict` returns its `remoteChange` argument for any two
non-null inputs — last-write-wins, the local change never influences the
result. -/
theorem resolveConflict_returns_remote (localChange remoteChange : JValue)
    (_hl : localChange ≠ JValue.jnull) (_hr : remoteChange ≠ JValue.jnull) :
    resolveConflict localChange remoteChange = remoteChange := rfl

theorem resolveConflict_returns_remote_witness :
    (JValue.jnum 1 ≠ JValue.jnull) ∧ (JValue.jnum 2 ≠ JValue.jnull) ∧
    resolveConflict (JValue.jnum 1) (JValue.jnum 2) = JValue.jnum 2 :=
  ⟨by simp, by simp, resolveConflict_returns_remote _ _ (by simp) (by simp)⟩

end CollaborationService

namespace CollaborationService

theorem getFieldL_eq_lookupKey (f : List (String × JValue)) (k : String) :
    getFieldL f k = (lookupKey f k).getD .jundefined := by
  induction f with
  | nil => rfl
  | cons p rest ih =>
    obtain ⟨k0, v0⟩ := p
    by_cases h : k0 = k
    · simp [getFieldL, lookupKey, h]
    · simp [getFieldL, lookupKey, h, ih]

theorem getFieldL_setKey_self (f : List (String × JValue)) (k : String) (v : JValue) :
    getFieldL (setKey f k v) k = v := by
  rw [getFieldL_eq_lookupKey, lookupKey_setKey_self]
  rfl

theorem getFieldL_setKey_other (f : List (String × JValue)) (k k' : String)
    (v : JValue) (h : k' ≠ k) :
    getFieldL (setKey f k v) k' = getFieldL f k' := by
  rw [getFieldL_eq_lookupKey, lookupKey_setKey_other _ _ _ _ h, getFieldL_eq_lookupKey]

theorem lookupKey_spreadInto (a b : List (String × JValue)) (k : String)
    (hnd : (b.map Prod.fst).Nodup) :
    lookupKey (spreadInto a b) k =
      if k ∈ b.map Prod.fst then lookupKey b k else lookupKey a k := by
  induction b generalizing a with
  | nil => simp [spreadInto]
  | cons p b' ih =>
    obtain ⟨k0, v0⟩ := p
    simp only [List.map_cons, List.nodup_cons] at hnd
    have hstep : spreadInto a ((k0, v0) :: b') = spreadInto (setKey a k0 v0) b' := rfl
    rw [hstep, ih _ hnd.2]
    by_cases hk : k = k0
    · subst hk
      have hnotin : k ∉ b'.map Prod.fst := hnd.1
      simp [hnotin, lookupKey_setKey_self, lookupKey]
    · by_cases hmem : k ∈ b'.map Prod.fst
      · simp [hmem, lookupKey, Ne.symm hk]
      · have hnot : ¬ (k ∈ k0 :: b'.map Prod.fst) := by
          simp [hk, hmem]
        simp [hmem, hnot, lookupKey, Ne.symm hk,
          lookupKey_setKey_other _ _ _ _ hk]

theorem getFieldL_spreadInto (a b : List (String × JValue)) (k : String)
    (hnd : (b.map Prod.fst).Nodup) :
    getFieldL (spreadInto a b) k =
      if k ∈ b.map Prod.fst then getFieldL b k else getFieldL a k := by
  rw [getFieldL_eq_lookupKey, lookupKey_spreadInto a b k hnd]
  split <;> rw [getFieldL_eq_lookupKey]

/-- C8 (amended): on two `table_update` operations with strictly-equal
`tableId` (objects with numeric epoch-ms timestamps and duplicate-free data
keys, as JSON `data` objects are), the result's `data.lastModified` is the
maximum of the two timestamps and every other key of the shallow union takes
the SECOND operation's value whenever the second operation carries the key
(regardless of which timestamp is later — see the counterexample);
operations of different kinds or on different tables pass through as the
first argument, unchanged. -/
theorem transformOperation_merges_table_updates
    (op1 op2 : JValue) (d1 d2 : List (String × JValue)) (t1 t2 : Int)
    (hty1 : getField op1 "type" = .jstr "table_update")
    (hty2 : getField op2 "type" = .jstr "table_update")
    (htid : jsStrictEq (getField op1 "tableId") (getField op2 "tableId") = true)
    (hd1 : getField op1 "data" = JValue.jobj d1)
    (hd2 : getField op2 "data" = JValue.jobj d2)
    (ht1 : getField op1 "timestamp" = JValue.jnum t1)
    (ht2 : getField op2 "timestamp" = JValue.jnum t2)
    (hnd : (d2.map Prod.fst).Nodup) :
    getField (getField (transformOperation op1 op2) "data") "lastModified" =
      JValue.jnum (max t1 t2)
  ∧ (∀ k : String, k ≠ "lastModified" →
      getField (getField (transformOperation op1 op2) "data") k =
        if k ∈ d2.map Prod.fst then getFieldL d2 k else getFieldL d1 k)
  ∧ (∀ q1 q2 : JValue,
      (jsStrictEq (getField q1 "type") (.jstr "table_update") = false ∨
       jsStrictEq (getField q2 "type") (.jstr "table_update") = false ∨
       jsStrictEq (getField q1 "tableId") (getField q2 "tableId") = false) →
      transformOperation q1 q2 = q1) := by
  have hb1 : jsStrictEq (getField op1 "type") (.jstr "table_update") = true := by
    rw [hty1]; rfl
  have hb2 : jsStrictEq (getField op2 "type") (.jstr "table_update") = true := by
    rw [hty2]; rfl
  have htr : transformOperation op1 op2 = mergeTableOperations op1 op2 := by
    simp [transformOperation, hb1, hb2, htid]
  have hdata : getField (transformOperation op1 op2) "data" =
      JValue.jobj (setKey (spreadInto d1 d2) "lastModified" (JValue.jnum (max t1 t2))) := by
    rw [htr]
    simp only [mergeTableOperations, hd1, hd2, ht1, ht2]
    simp only [dateGetTime, objFields]
    simp [getField, getFieldL_setKey_self]
  refine ⟨?_, ?_, ?_⟩
  · rw [hdata]
    simp [getField, getFieldL_setKey_self]
  · intro k hk
    rw [hdata]
    simp only [getField]
    rw [getFieldL_setKey_other _ _ _ _ hk, getFieldL_spreadInto d1 d2 k hnd]
  · intro q1 q2 hq
    rcases hq with hq | hq | hq
    · simp [transformOperation, hq]
    · simp [transformOperation, hq]
    · by_cases h12 : (jsStrictEq (getField q1 "type") (.jstr "table_update") &&
          jsStrictEq (getField q2 "type") (.jstr "table_update")) = true
      · simp [transformOperation, h12, hq]
      · simp only [transformOperation]
        rw [if_neg (by simpa using h12)]

/-- A `table_update` on table `t1` with the LATER timestamp and `a = 1`. -/
def tOp1 : JValue :=
  .jobj [("type", JValue.jstr "table_update"), ("tableId", JValue.jstr "t1"),
         ("timestamp", JValue.jnum 100), ("data", JValue.jobj [("a", JValue.jnum 1)])]

/-- A `table_update` on table `t1` with the EARLIER timestamp and `a = 2`. -/
def tOp2 : JValue :=
  .jobj [("type", JValue.jstr "table_update"), ("tableId", JValue.jstr "t1"),
         ("timestamp", JValue.jnum 50), ("data", JValue.jobj [("a", JValue.jnum 2)])]

/-- C8 counterexample: `tOp1` carries the later timestamp (100 > 50), yet
the merged overlapping key `"a"` holds `tOp2`'s value 2: the second operand
always wins the shallow merge, not the operand with the later timestamp. -/
theorem transformOperation_second_operand_wins :
    getField (getField (transformOperation tOp1 tOp2) "data") "a" = JValue.jnum 2 ∧
    getField tOp1 "timestamp" = JValue.jnum 100 ∧
    getField tOp2 "timestamp" = JValue.jnum 50 :=
  ⟨rfl, rfl, rfl⟩

theorem transformOperation_merges_table_updates_witness :
    getField tOp1 "type" = JValue.jstr "table_update" ∧
    getField (getField (transformOperation tOp1 tOp2) "data") "lastModified" =
      JValue.jnum (max 100 50) ∧
    getField (getField (transformOperation tOp1 tOp2) "data") "a" =
      (if "a" ∈ ([("a", JValue.jnum 2)].map Prod.fst) then
        getFieldL [("a", JValue.jnum 2)] "a" else getFieldL [("a", JValue.jnum 1)] "a") := by
  have h := transformOperation_merges_table_updates tOp1 tOp2
    [("a", JValue.jnum 1)] [("a", JValue.jnum 2)] 100 50
    rfl rfl rfl rfl rfl rfl rfl (by simp)
  exact ⟨rfl, h.1, h.2.1 "a" (by simp)⟩

end CollaborationService

namespace CollaborationService

/-- C9 (amended): for an initialized session (a current user is present)
each of `sendCursorUpdate`, `sendSchemaChange`, `sendUserSelection` and
`updatePresence` hands its envelope to the transport exactly when the
session is connected and otherwise is a logged no-op — in particular none of
them throws; and `sendCursorUpdate` is a guarded no-op even with no current
user.  (The other three dereference `this.currentUser!` and throw on an
uninitialized session; see the counterexample.) -/
theorem send_methods_connected_guard (cid sid : Option String)
    (conn serviceOpen : Bool) (u : CollaborationUser) (now : String)
    (position : CursorPosition) (change : SchemaChange) (selection : UserSelection)
    (status : String) (currentAction : Option String) :
    (∃ m, sendCursorUpdate ⟨cid, some u, sid, conn⟩ serviceOpen now position =
      if sessionReady ⟨cid, some u, sid, conn⟩ serviceOpen then SendOutcome.sent m
      else SendOutcome.noop)
  ∧ (∃ m, sendSchemaChange ⟨cid, some u, sid, conn⟩ serviceOpen now change =
      if sessionReady ⟨cid, some u, sid, conn⟩ serviceOpen then SendOutcome.sent m
      else SendOutcome.noop)
  ∧ (∃ m, sendUserSelection ⟨cid, some u, sid, conn⟩ serviceOpen now selection =
      if sessionReady ⟨cid, some u, sid, conn⟩ serviceOpen then SendOutcome.sent m
      else SendOutcome.noop)
  ∧ (∃ m, updatePresence ⟨cid, some u, sid, conn⟩ serviceOpen now status currentAction =
      if sessionReady ⟨cid, some u, sid, conn⟩ serviceOpen then SendOutcome.sent m
      else SendOutcome.noop)
  ∧ sendCursorUpdate ⟨cid, none, sid, conn⟩ serviceOpen now position = SendOutcome.noop :=
  ⟨⟨_, rfl⟩, ⟨_, rfl⟩, ⟨_, rfl⟩, ⟨_, rfl⟩, rfl⟩

/-- C9 counterexample: on a session that was never initialized
(`currentUser` is null) `sendSchemaChange` evaluates `this.currentUser!.id`
while building its envelope and throws a TypeError instead of being a
logged no-op. -/
theorem sendSchemaChange_throws_without_user :
    sendSchemaChange ⟨none, none, none, false⟩ false "2024-01-01T00:00:00.000Z"
      ⟨"table_created", JValue.jnull, "u1", "2024-01-01T00:00:00.000Z"⟩ =
      SendOutcome.threw := rfl

theorem lookupKey_onEvent (m : List (String × List Nat)) (event : String)
    (handler : Nat) :
    lookupKey (onEvent m event handler) event = some (emit m event ++ [handler]) := by
  unfold onEvent emit
  cases hl : lookupKey m event with
  | none => simp [hl, lookupKey_setKey_self]
  | some hs => simp [hl, lookupKey_setKey_self]

theorem emit_onEvent (m : List (String × List Nat)) (event : String) (handler : Nat) :
    emit (onEvent m event handler) event = emit m event ++ [handler] := by
  have h := lookupKey_onEvent m event handler
  unfold emit
  rw [h]
  rfl

/-- C10: registering the same handler twice for a topic makes every emit
invoke it twice; a single `off` removes exactly one (the first) matching
registration, after which the handler is still invoked once per emit; and
`off` never shrinks a topic's handler list by more than one per call. -/
theorem duplicate_subscription_single_removal
    (m : List (String × List Nat)) (event : String) (handler : Nat) :
    (emit (onEvent (onEvent m event handler) event handler) event).count handler =
      (emit m event).count handler + 2
  ∧ (emit (off (onEvent (onEvent m event handler) event handler) event handler)
        event).count handler = (emit m event).count handler + 1
  ∧ ∀ (m' : List (String × List Nat)) (e : String) (h : Nat),
      (emit m' e).length ≤ (emit (off m' e h) e).length + 1 := by
  refine ⟨?_, ?_, ?_⟩
  · simp [emit_onEvent]
  · have hl : lookupKey (onEvent (onEvent m event handler) event handler) event =
        some ((emit m event ++ [handler]) ++ [handler]) := by
      rw [lookupKey_onEvent, emit_onEvent]
    have hoff : off (onEvent (onEvent m event handler) event handler) event handler =
        setKey (onEvent (onEvent m event handler) event handler) event
          (((emit m event ++ [handler]) ++ [handler]).erase handler) := by
      unfold off
      rw [hl]
    have hemit : emit (setKey (onEvent (onEvent m event handler) event handler) event
        (((emit m event ++ [handler]) ++ [handler]).erase handler)) event =
        ((emit m event ++ [handler]) ++ [handler]).erase handler := by
      unfold emit
      rw [lookupKey_setKey_self]
    rw [hoff, hemit, List.count_erase_self]
    simp [List.count_append]
  · intro m' e h
    cases hl : lookupKey m' e with
    | none =>
      have hoff : off m' e h = m' := by
        unfold off
        rw [hl]
      rw [hoff]
      omega
    | some hs =>
      have hoff : off m' e h = setKey m' e (hs.erase h) := by
        unfold off
        rw [hl]
      have hemit : emit (setKey m' e (hs.erase h)) e = hs.erase h := by
        unfold emit
        rw [lookupKey_setKey_self]
      have hemit' : emit m' e = hs := by
        unfold emit
        rw [hl]
      rw [hoff, hemit, hemit']
      by_cases hmem : h ∈ hs
      · rw [List.length_erase_of_mem hmem]
        omega
      · rw [List.erase_of_not_mem hmem]
        omega

end CollaborationService
